import Mathlib

/-!
Verification of the prediction-market arbitrage system against its
natural-language specification.  All monetary quantities (prices, sizes,
costs, fees) are modelled as exact rationals; the Python source uses IEEE
floats with the same algebraic formulas.  Each definition is a direct
shallow embedding of a function of the source repository; the file is
organised as: depth model (case/gold/arb.py), opportunity detector
(src/engine/arbitrage.py), execution coordinator (src/engine/executor.py),
then the theorems settling the specification claims.
-/

namespace PMQuant

/-! ## Depth model and cost walk — case/gold/arb.py -/

/-- Loop body of `calc_buy_cost` (case/gold/arb.py, lines 80-93): walk the
ask ladder in the order given, taking `min(level_size, remaining)` at each
level, accumulating `price * take`; return the accumulated cost as soon as
`remaining <= 0`, otherwise `None` when the ladder is exhausted. -/
def calcBuyCostAux : List (ℚ × ℚ) → ℚ → ℚ → Option ℚ
  | [], _, _ => none
  | (price, size) :: rest, remaining, cost =>
      let take := min size remaining
      let cost' := cost + price * take
      let remaining' := remaining - take
      if remaining' ≤ 0 then some cost' else calcBuyCostAux rest remaining' cost'

/-- Embeds `calc_buy_cost(orderbook, shares)`: cost to buy `shares`
eating the asks, `none` when there is not enough liquidity. -/
def calc_buy_cost (asks : List (ℚ × ℚ)) (shares : ℚ) : Option ℚ :=
  calcBuyCostAux asks shares 0

/-- Total ask-side depth of a ladder: `sum(size for _, size in asks)`. -/
def ladderDepth (asks : List (ℚ × ℚ)) : ℚ :=
  (asks.map Prod.snd).sum

/-- Price of the first ask level (top of book); `0` for an empty ladder. -/
def headPrice : List (ℚ × ℚ) → ℚ
  | [] => 0
  | (price, _) :: _ => price

/-- Combined cost of filling `shares` on every Polymarket book, `none` when
any single book lacks liquidity — the `for book in pm_books` accumulation
loop inside `calc_max_shares` (the Python loop breaks on the first `None`;
since a single missing book already invalidates the midpoint, the
order-insensitive recursion below is equivalent). -/
def pmCostsSum : List (List (ℚ × ℚ)) → ℚ → Option ℚ
  | [], _ => some 0
  | b :: bs, shares =>
      match calc_buy_cost b shares, pmCostsSum bs shares with
      | some c, some t => some (c + t)
      | _, _ => none

/-- The 50-iteration binary search of `calc_max_shares` (case/gold/arb.py,
lines 113-144).  State: `lo`, `hi`, best `result` found so far; a midpoint
is profitable when every leg fills and
`pf_cost * fee_rate + Σ pm_costs < mid`. -/
def binSearchGold (pfBook : List (ℚ × ℚ)) (pmBooks : List (List (ℚ × ℚ)))
    (feeRate : ℚ) : Nat → ℚ → ℚ → ℚ → ℚ
  | 0, _, _, result => result
  | fuel + 1, lo, hi, result =>
      let mid := (lo + hi) / 2
      if mid ≤ 0 then result
      else
        match calc_buy_cost pfBook mid with
        | none => binSearchGold pfBook pmBooks feeRate fuel lo mid result
        | some pfCost =>
            match pmCostsSum pmBooks mid with
            | none => binSearchGold pfBook pmBooks feeRate fuel lo mid result
            | some pmTotal =>
                if pfCost * feeRate + pmTotal < mid then
                  binSearchGold pfBook pmBooks feeRate fuel mid hi mid
                else binSearchGold pfBook pmBooks feeRate fuel lo mid result

/-- Embeds `calc_max_shares(pf_book, pm_books, fee_rate)`: upper bound is
the minimum total depth over all books; if it is `<= 0` return `0`,
otherwise run the 50-step binary search from `lo = 0`, `hi = max_liquidity`,
`result = 0`. -/
def calc_max_shares (pfBook : List (ℚ × ℚ)) (pmBooks : List (List (ℚ × ℚ)))
    (feeRate : ℚ) : ℚ :=
  let maxLiquidity := (pmBooks.map ladderDepth).foldl min (ladderDepth pfBook)
  if maxLiquidity ≤ 0 then 0
  else binSearchGold pfBook pmBooks feeRate 50 0 maxLiquidity 0

/-- The fee multiplier `PF_FEE_RATE = 1.02` of case/gold/arb.py. -/
def PF_FEE_RATE : ℚ := 102 / 100

/-- Top-of-book total cost of gold `check_arbitrage`:
`pf_no_ask * PF_FEE_RATE + sum(pm_yes_asks)`. -/
def goldTotalCost (pfNoAsk : ℚ) (pmYesAsks : List ℚ) : ℚ :=
  pfNoAsk * PF_FEE_RATE + pmYesAsks.sum

/-- Profit rate of gold `check_arbitrage`: `1 - total_cost`. -/
def goldProfitRate (pfNoAsk : ℚ) (pmYesAsks : List ℚ) : ℚ :=
  1 - goldTotalCost pfNoAsk pmYesAsks

/-- The §3 ask-ladder sortedness invariant: prices non-decreasing in the
order given (`Pairwise (· ≤ ·)` on the price components, which for a
transitive relation coincides with adjacent-pairs sortedness). -/
def asksSorted (asks : List (ℚ × ℚ)) : Prop :=
  asks.Pairwise (fun a b => a.1 ≤ b.1)

/-- Every level size of the ladder is non-negative. -/
def sizesNonneg (asks : List (ℚ × ℚ)) : Prop :=
  ∀ x ∈ asks, 0 ≤ x.2

instance (asks : List (ℚ × ℚ)) : Decidable (asksSorted asks) := by
  unfold asksSorted
  infer_instance

instance (asks : List (ℚ × ℚ)) : Decidable (sizesNonneg asks) := by
  unfold sizesNonneg
  infer_instance

/-! ### Cost-walk lemmas -/

theorem calcBuyCostAux_shift (asks : List (ℚ × ℚ)) (r c : ℚ) :
    calcBuyCostAux asks r c = (calcBuyCostAux asks r 0).map (c + ·) := by
  induction asks generalizing r c with
  | nil => rfl
  | cons hd tl ih =>
      obtain ⟨p, s⟩ := hd
      by_cases h : r - min s r ≤ 0
      · simp [calcBuyCostAux, h]
      · simp only [calcBuyCostAux, if_neg h]
        rw [ih _ (c + p * min s r), ih _ (0 + p * min s r), Option.map_map]
        apply congrFun
        apply congrArg
        funext x
        simp [Function.comp]
        ring

theorem calc_buy_cost_nil (r : ℚ) : calc_buy_cost [] r = none := rfl

/-- One-step unfolding of the cost walk: a head level `(p, s)` either covers
the whole remaining target (`r ≤ s`, cost `p * r`) or is consumed entirely
and the walk recurses on the tail with target `r - s`. -/
theorem calc_buy_cost_cons (p s : ℚ) (tl : List (ℚ × ℚ)) (r : ℚ) :
    calc_buy_cost ((p, s) :: tl) r =
      if r ≤ s then some (p * r)
      else (calc_buy_cost tl (r - s)).map (fun c => p * s + c) := by
  by_cases h : r ≤ s
  · have hmin : min s r = r := min_eq_right h
    simp [calc_buy_cost, calcBuyCostAux, hmin, h]
  · have hlt : s < r := lt_of_not_ge h
    have hmin : min s r = s := min_eq_left (le_of_lt hlt)
    have hpos : ¬ r - s ≤ 0 := by linarith
    simp only [calc_buy_cost, calcBuyCostAux, hmin, if_neg hpos, if_neg h]
    rw [calcBuyCostAux_shift]
    apply congrFun
    apply congrArg
    funext x
    simp

theorem headPrice_le_of_sorted (asks : List (ℚ × ℚ)) (h : asksSorted asks) :
    ∀ x ∈ asks, headPrice asks ≤ x.1 := by
  cases asks with
  | nil => intro x hx; cases hx
  | cons hd tl =>
      obtain ⟨q, z⟩ := hd
      rw [asksSorted, List.pairwise_cons] at h
      intro x hx
      rcases List.mem_cons.mp hx with h1 | h2
      · subst h1; exact le_refl _
      · exact h.1 x h2

theorem asksSorted_tail {hd : ℚ × ℚ} {tl : List (ℚ × ℚ)}
    (h : asksSorted (hd :: tl)) : asksSorted tl := by
  rw [asksSorted, List.pairwise_cons] at h
  exact h.2

theorem sizesNonneg_tail {hd : ℚ × ℚ} {tl : List (ℚ × ℚ)}
    (h : sizesNonneg (hd :: tl)) : sizesNonneg tl :=
  fun x hx => h x (List.mem_cons_of_mem hd hx)

/-- Lower bound on the walk: if every level's price is at least `p`, every
size is non-negative, and the walk fills a positive target `u`, the cost is
at least `p * u`. -/
theorem calc_buy_cost_ge (asks : List (ℚ × ℚ)) (p u c : ℚ)
    (hp : ∀ x ∈ asks, p ≤ x.1) (hsz : sizesNonneg asks)
    (hu : 0 < u) (hc : calc_buy_cost asks u = some c) :
    p * u ≤ c := by
  induction asks generalizing u c with
  | nil => simp [calc_buy_cost_nil] at hc
  | cons hd tl ih =>
      obtain ⟨q, z⟩ := hd
      have hq : p ≤ q := hp (q, z) (List.mem_cons_self _ _)
      have hz : 0 ≤ z := hsz (q, z) (List.mem_cons_self _ _)
      rw [calc_buy_cost_cons] at hc
      by_cases h : u ≤ z
      · rw [if_pos h, Option.some_inj] at hc
        subst hc
        exact mul_le_mul_of_nonneg_right hq hu.le
      · rw [if_neg h] at hc
        obtain ⟨c', hc', rfl⟩ := Option.map_eq_some'.mp hc
        have hzu : z < u := lt_of_not_ge h
        have ih' : p * (u - z) ≤ c' :=
          ih (u - z) c' (fun x hx => hp x (List.mem_cons_of_mem _ hx))
            (sizesNonneg_tail hsz) (by linarith) hc'
        nlinarith [mul_le_mul_of_nonneg_right hq hz]

/-- Marginal cost bound: between two fully-filled targets `u₁ ≤ u₂` on a
sorted ladder with prices at least `p`, the extra cost of the extra
`u₂ - u₁` units is at least `p * (u₂ - u₁)`. -/
theorem calc_buy_cost_marginal (asks : List (ℚ × ℚ)) (p u₁ u₂ c₁ c₂ : ℚ)
    (hsorted : asksSorted asks) (hp : ∀ x ∈ asks, p ≤ x.1)
    (hsz : sizesNonneg asks) (hu₁ : 0 < u₁) (h12 : u₁ ≤ u₂)
    (hc₁ : calc_buy_cost asks u₁ = some c₁)
    (hc₂ : calc_buy_cost asks u₂ = some c₂) :
    p * (u₂ - u₁) ≤ c₂ - c₁ := by
  induction asks generalizing p u₁ u₂ c₁ c₂ with
  | nil => simp [calc_buy_cost_nil] at hc₁
  | cons hd tl ih =>
      obtain ⟨q, z⟩ := hd
      have hq : p ≤ q := hp (q, z) (List.mem_cons_self _ _)
      have hz : 0 ≤ z := hsz (q, z) (List.mem_cons_self _ _)
      have htl : ∀ x ∈ tl, q ≤ x.1 := fun x hx =>
        headPrice_le_of_sorted ((q, z) :: tl) hsorted x (List.mem_cons_of_mem _ hx)
      rw [calc_buy_cost_cons] at hc₁ hc₂
      by_cases h2 : u₂ ≤ z
      · have h1 : u₁ ≤ z := le_trans h12 h2
        rw [if_pos h1, Option.some_inj] at hc₁
        rw [if_pos h2, Option.some_inj] at hc₂
        subst hc₁; subst hc₂
        nlinarith [sub_nonneg.mpr h12]
      · rw [if_neg h2] at hc₂
        obtain ⟨c₂', hc₂', rfl⟩ := Option.map_eq_some'.mp hc₂
        have hz2 : z < u₂ := lt_of_not_ge h2
        by_cases h1 : u₁ ≤ z
        · rw [if_pos h1, Option.some_inj] at hc₁
          subst hc₁
          have hge : q * (u₂ - z) ≤ c₂' :=
            calc_buy_cost_ge tl q (u₂ - z) c₂' htl (sizesNonneg_tail hsz)
              (by linarith) hc₂'
          nlinarith [mul_le_mul_of_nonneg_right hq (sub_nonneg.mpr h12)]
        · rw [if_neg h1] at hc₁
          obtain ⟨c₁', hc₁', rfl⟩ := Option.map_eq_some'.mp hc₁
          have hz1 : z < u₁ := lt_of_not_ge h1
          have ih' : q * ((u₂ - z) - (u₁ - z)) ≤ c₂' - c₁' :=
            ih q (u₁ - z) (u₂ - z) c₁' c₂' (asksSorted_tail hsorted) htl
              (sizesNonneg_tail hsz) (by linarith) (by linarith) hc₁' hc₂'
          nlinarith [mul_le_mul_of_nonneg_right hq (sub_nonneg.mpr h12)]

/-- Average-cost monotonicity (cross-multiplied form): on a sorted ladder
with non-negative sizes, if targets `0 < t₁ ≤ t₂` both fill completely then
`cost(t₁) * t₂ ≤ cost(t₂) * t₁`. -/
theorem calc_buy_cost_avg_mono_mul (asks : List (ℚ × ℚ)) (t₁ t₂ c₁ c₂ : ℚ)
    (hsorted : asksSorted asks) (hsz : sizesNonneg asks)
    (ht₁ : 0 < t₁) (ht : t₁ ≤ t₂)
    (hc₁ : calc_buy_cost asks t₁ = some c₁)
    (hc₂ : calc_buy_cost asks t₂ = some c₂) :
    c₁ * t₂ ≤ c₂ * t₁ := by
  induction asks generalizing t₁ t₂ c₁ c₂ with
  | nil => simp [calc_buy_cost_nil] at hc₁
  | cons hd tl ih =>
      obtain ⟨q, z⟩ := hd
      have hz : 0 ≤ z := hsz (q, z) (List.mem_cons_self _ _)
      have htl : ∀ x ∈ tl, q ≤ x.1 := fun x hx =>
        headPrice_le_of_sorted ((q, z) :: tl) hsorted x (List.mem_cons_of_mem _ hx)
      rw [calc_buy_cost_cons] at hc₁ hc₂
      by_cases h2 : t₂ ≤ z
      · have h1 : t₁ ≤ z := le_trans ht h2
        rw [if_pos h1, Option.some_inj] at hc₁
        rw [if_pos h2, Option.some_inj] at hc₂
        subst hc₁; subst hc₂
        nlinarith
      · rw [if_neg h2] at hc₂
        obtain ⟨c₂', hc₂', rfl⟩ := Option.map_eq_some'.mp hc₂
        have hz2 : z < t₂ := lt_of_not_ge h2
        by_cases h1 : t₁ ≤ z
        · rw [if_pos h1, Option.some_inj] at hc₁
          subst hc₁
          have hge : q * (t₂ - z) ≤ c₂' :=
            calc_buy_cost_ge tl q (t₂ - z) c₂' htl (sizesNonneg_tail hsz)
              (by linarith) hc₂'
          nlinarith [mul_nonneg ht₁.le (by linarith : (0:ℚ) ≤ q * z + c₂' - q * t₂)]
        · rw [if_neg h1] at hc₁
          obtain ⟨c₁', hc₁', rfl⟩ := Option.map_eq_some'.mp hc₁
          have hz1 : z < t₁ := lt_of_not_ge h1
          have ihm : c₁' * (t₂ - z) ≤ c₂' * (t₁ - z) :=
            ih (t₁ - z) (t₂ - z) c₁' c₂' (asksSorted_tail hsorted)
              (sizesNonneg_tail hsz) (by linarith) (by linarith) hc₁' hc₂'
          have hmarg : q * ((t₂ - z) - (t₁ - z)) ≤ c₂' - c₁' :=
            calc_buy_cost_marginal tl q (t₁ - z) (t₂ - z) c₁' c₂'
              (asksSorted_tail hsorted) htl (sizesNonneg_tail hsz)
              (by linarith) (by linarith) hc₁' hc₂'
          nlinarith [mul_nonneg hz (by linarith : (0:ℚ) ≤ c₂' - c₁' - q * (t₂ - t₁))]

/-- Lower bound for the summed Polymarket leg costs in terms of the
top-of-book prices. -/
theorem pmCostsSum_ge (books : List (List (ℚ × ℚ))) (mid t : ℚ)
    (hmid : 0 < mid)
    (hs : ∀ b ∈ books, asksSorted b ∧ sizesNonneg b)
    (ht : pmCostsSum books mid = some t) :
    (books.map headPrice).sum * mid ≤ t := by
  induction books generalizing t with
  | nil =>
      simp only [pmCostsSum, Option.some_inj] at ht
      subst ht
      simp
  | cons b bs ih =>
      rcases hb : calc_buy_cost b mid with _ | c
      · simp [pmCostsSum, hb] at ht
      · rcases hbs : pmCostsSum bs mid with _ | t'
        · simp [pmCostsSum, hb, hbs] at ht
        · simp only [pmCostsSum, hb, hbs, Option.some_inj] at ht
          subst ht
          have hsb := hs b (List.mem_cons_self _ _)
          have hcge : headPrice b * mid ≤ c :=
            calc_buy_cost_ge b (headPrice b) mid c
              (headPrice_le_of_sorted b hsb.1) hsb.2 hmid hb
          have ih' : (bs.map headPrice).sum * mid ≤ t' :=
            ih t' (fun x hx => hs x (List.mem_cons_of_mem _ hx)) hbs
          rw [List.map_cons, List.sum_cons]
          nlinarith

/-- Under a top-of-book unit cost of at least 1, no midpoint is ever
profitable, so the binary search never moves its `result` off the initial
`0`. -/
theorem binSearchGold_stays_zero (pfBook : List (ℚ × ℚ))
    (pmBooks : List (List (ℚ × ℚ))) (feeRate : ℚ)
    (H : ∀ mid : ℚ, 0 < mid → ∀ pfC, calc_buy_cost pfBook mid = some pfC →
      ∀ pmT, pmCostsSum pmBooks mid = some pmT → mid ≤ pfC * feeRate + pmT) :
    ∀ fuel lo hi, binSearchGold pfBook pmBooks feeRate fuel lo hi 0 = 0 := by
  intro fuel
  induction fuel with
  | zero => intro lo hi; rfl
  | succ n ih =>
      intro lo hi
      by_cases hm : (lo + hi) / 2 ≤ 0
      · rw [binSearchGold, if_pos hm]
      · rcases hpf : calc_buy_cost pfBook ((lo + hi) / 2) with _ | pfC
        · simp only [binSearchGold, if_neg hm, hpf]
          exact ih lo ((lo + hi) / 2)
        · rcases hpm : pmCostsSum pmBooks ((lo + hi) / 2) with _ | pmT
          · simp only [binSearchGold, if_neg hm, hpf, hpm]
            exact ih lo ((lo + hi) / 2)
          · have hnp : ¬ (pfC * feeRate + pmT < (lo + hi) / 2) :=
              not_lt.mpr (H _ (lt_of_not_ge hm) pfC hpf pmT hpm)
            simp only [binSearchGold, if_neg hm, hpf, hpm, if_neg hnp]
            exact ih lo ((lo + hi) / 2)

/-! ## Data model — src/models.py -/

/-- The trading venues (`Platform` enum). -/
inductive Platform
  | polymarket
  | opinion
  | predictFun
deriving DecidableEq, Repr

/-- Order side (`Side` enum). -/
inductive Side
  | buy
  | sell
deriving DecidableEq, Repr

/-- Arbitrage direction (`Direction` enum). -/
inductive Direction
  | pmYesOpNo
  | pmNoOpYes
  | pmYesPfNo
  | pmNoPfYes
  | opYesPfNo
  | opNoPfYes
deriving DecidableEq, Repr

/-- Order status (`OrderStatus` enum); `partFilled` embeds the source's
partially-filled state. -/
inductive OrderStatus
  | pending
  | partFilled
  | filled
  | cancelled
  | failed
deriving DecidableEq, Repr

/-- The flat `Orderbook` snapshot of src/models.py (top of book only).
Timestamps are rational seconds supplied explicitly instead of wall-clock
reads. -/
structure OrderbookFlat where
  platform : Platform
  token_id : Nat
  best_bid : ℚ
  best_ask : ℚ
  bid_size : ℚ
  ask_size : ℚ
  timestamp : ℚ
deriving DecidableEq, Repr

/-- `Orderbook.is_fresh(max_age_ms)` with the wall clock passed as `now`:
`(now - timestamp) * 1000 < max_age_ms`. -/
def OrderbookFlat.isFresh (ob : OrderbookFlat) (maxAgeMs : ℚ) (now : ℚ) : Bool :=
  (now - ob.timestamp) * 1000 < maxAgeMs

/-- `OrderResult` of src/models.py (runtime timestamp omitted). -/
structure OrderResult where
  order_id : Nat
  platform : Platform
  token_id : Nat
  side : Side
  price : ℚ
  requested_size : ℚ
  filled_size : ℚ
  status : OrderStatus
deriving DecidableEq, Repr

/-- The `OrderResult.success` property: status equals `FILLED`. -/
def OrderResult.success (o : OrderResult) : Bool :=
  o.status == OrderStatus.filled

/-- `ExecutionResult` exactly as declared in src/models.py lines 119-133:
its dataclass fields are `success`, `reason`, `pm_order`, `op_order`,
`unhedged` (runtime timestamp omitted).  There is no `pf_order` field. -/
structure ExecutionResult where
  success : Bool
  reason : String
  pm_order : Option OrderResult
  op_order : Option OrderResult
  unhedged : ℚ
deriving DecidableEq, Repr

/-- `UnhedgedPosition` of src/models.py (runtime timestamp omitted). -/
structure UnhedgedPosition where
  filled_order : OrderResult
  missing_platform : Platform
  expected_size : ℚ
  reason : String
  retry_count : Nat
  resolved : Bool
deriving DecidableEq, Repr

/-- The `ArbitrageOpportunity` fields produced by
`ArbitrageEngine._check_direction` (tokens as numeric ids; the fields of
the other venue pair and the runtime timestamp are omitted). -/
structure ArbOpportunityM where
  direction : Direction
  pm_token : Nat
  op_token : Nat
  pm_price : ℚ
  op_price : ℚ
  total_cost : ℚ
  profit_pct : ℚ
  max_size : ℚ
deriving DecidableEq, Repr

/-! ## Opportunity detector — src/engine/arbitrage.py -/

/-- The configuration values `ArbitrageEngine.__init__` extracts: profit
threshold, position-size limits, freshness window, and the per-platform
taker fees and gas estimates of the two legs being checked. -/
structure EngineConfig where
  min_profit : ℚ
  max_size : ℚ
  min_size : ℚ
  freshness_ms : ℚ
  pm_fee : ℚ
  pm_gas : ℚ
  op_fee : ℚ
  op_gas : ℚ
deriving DecidableEq, Repr

/-- Embeds `ArbitrageEngine._check_direction` (src/engine/arbitrage.py,
lines 92-148): total cost is token cost plus proportional fees plus the
two gas estimates; rejects when `total_cost >= 1`, when
`profit_pct = (1 - total_cost) / total_cost` is below the threshold, or
when the depth-capped size is below the minimum size. -/
def checkDirection (cfg : EngineConfig) (direction : Direction)
    (pm_ob op_ob : OrderbookFlat) : Option ArbOpportunityM :=
  let pm_price := pm_ob.best_ask
  let op_price := op_ob.best_ask
  let token_cost := pm_price + op_price
  let fee_cost := pm_price * cfg.pm_fee + op_price * cfg.op_fee
  let gas_cost := cfg.pm_gas + cfg.op_gas
  let total_cost := token_cost + fee_cost + gas_cost
  if 1 ≤ total_cost then none
  else
    let profit_pct := (1 - total_cost) / total_cost
    if profit_pct < cfg.min_profit then none
    else
      let max_size := min (min pm_ob.ask_size op_ob.ask_size) cfg.max_size
      if max_size < cfg.min_size then none
      else
        some ⟨direction, pm_ob.token_id, op_ob.token_id, pm_price, op_price,
          total_cost, profit_pct, max_size⟩

/-- Embeds `ArbitrageEngine.check_arbitrage` (src/engine/arbitrage.py,
lines 31-91): missing-book check, freshness check on all four books, both
directions evaluated, the most profitable returned (Python `max` keeps the
first element on ties). -/
def checkArbitrage (cfg : EngineConfig) (now : ℚ)
    (pm_yes pm_no op_yes op_no : Option OrderbookFlat) :
    Option ArbOpportunityM :=
  match pm_yes, pm_no, op_yes, op_no with
  | some pmY, some pmN, some opY, some opN =>
      if pmY.isFresh cfg.freshness_ms now ∧ pmN.isFresh cfg.freshness_ms now ∧
          opY.isFresh cfg.freshness_ms now ∧ opN.isFresh cfg.freshness_ms now then
        match checkDirection cfg Direction.pmYesOpNo pmY opN,
            checkDirection cfg Direction.pmNoOpYes pmN opY with
        | some o1, some o2 => if o1.profit_pct < o2.profit_pct then some o2 else some o1
        | some o1, none => some o1
        | none, some o2 => some o2
        | none, none => none
      else none
  | _, _, _, _ => none

/-! ## Execution coordinator — src/engine/executor.py -/

/-- One observable adapter call the executor makes, in order. -/
inductive Action
  | placeFokOrder (platform : Platform) (token_id : Nat) (side : Side)
      (price : ℚ) (size : ℚ)
  | placeOrder (platform : Platform) (token_id : Nat) (side : Side)
      (price : ℚ) (size : ℚ)
  | getOrderStatus (platform : Platform) (order_id : Nat)
  | cancelOrder (platform : Platform) (order_id : Nat)
  | getOrderbook (platform : Platform) (token_id : Nat)
deriving DecidableEq, Repr

/-- Is the action a sell-side order submission? -/
def Action.isSellOrder : Action → Bool
  | Action.placeFokOrder _ _ Side.sell _ _ => true
  | Action.placeOrder _ _ Side.sell _ _ => true
  | _ => false

/-- Is the action an order cancellation? -/
def Action.isCancel : Action → Bool
  | Action.cancelOrder _ _ => true
  | _ => false

/-- Python raises `TypeError` at the executor's `ExecutionResult(...)`
call sites that pass the keyword argument `pf_order`, because the dataclass
of src/models.py declares no such field. -/
inductive PyError
  | typeErrorPfOrderKw
deriving DecidableEq, Repr

/-- Constructing `ExecutionResult` the way `OrderExecutor.execute` does:
when a `pf_order=` keyword is supplied the construction fails with
`TypeError` (src/models.py declares only `success`, `reason`, `pm_order`,
`op_order`, `unhedged`); otherwise the dataclass is built with `op_order`
left at its default `None`. -/
def mkExecutionResult (success : Bool) (reason : String)
    (pm_order : Option OrderResult) (pf_order : Option OrderResult)
    (unhedged : ℚ) : Except PyError ExecutionResult :=
  match pf_order with
  | some _ => Except.error PyError.typeErrorPfOrderKw
  | none => Except.ok ⟨success, reason, pm_order, none, unhedged⟩

/-- Relevant fields of the `ArbitrageOpportunity` consumed by
`OrderExecutor.execute`. -/
structure OppParams where
  pm_token : Nat
  pf_token : Nat
  pm_price : ℚ
  pf_price : ℚ
deriving DecidableEq, Repr

/-- Venue responses for one run of `execute`: the Polymarket FOK result,
the Predict.fun placement result, and the status-query answer (`none`
embeds a failed `get_order_status` call). -/
structure ExecEnv where
  pmFok : OrderResult
  pfPlace : OrderResult
  pfStatus : Option OrderResult
deriving DecidableEq, Repr

instance {ε α : Type} [DecidableEq ε] [DecidableEq α] :
    DecidableEq (Except ε α) := fun a b =>
  match a, b with
  | Except.ok x, Except.ok y =>
      if h : x = y then isTrue (by rw [h]) else isFalse (by simp [h])
  | Except.error x, Except.error y =>
      if h : x = y then isTrue (by rw [h]) else isFalse (by simp [h])
  | Except.ok _, Except.error _ => isFalse (by simp)
  | Except.error _, Except.ok _ => isFalse (by simp)

/-- Everything observable about one run of `execute`: the returned value
(or the `TypeError` Python would raise), the adapter calls in order, and
the unhedged positions `_handle_unhedged` appended. -/
structure ExecTrace where
  result : Except PyError ExecutionResult
  actions : List Action
  recorded : List UnhedgedPosition
deriving DecidableEq, Repr

/-- Embeds `OrderExecutor.execute` (src/engine/executor.py, lines 42-163)
together with `_handle_unhedged` (which records an `UnhedgedPosition` and
logs; it places no orders).  Steps: place the PM FOK order; abandon with
`PM_NOT_FILLED` if unfilled; place the PF aggressive limit order at
`pf_price * (1 + aggressive_markup)`; on immediate failure record the
exposure; otherwise sleep and query the order status, falling back to the
placement-time result when the query fails; accept as success when the
filled size reaches 95% of the requested size; cancel only a still-PENDING
order; finally record partial or total PF exposure. -/
def executeModel (opp : OppParams) (size markup : ℚ) (env : ExecEnv) :
    ExecTrace :=
  let a1 := Action.placeFokOrder Platform.polymarket opp.pm_token Side.buy
    opp.pm_price size
  let pmResult := env.pmFok
  if pmResult.success = false then
    ⟨Except.ok ⟨false, "PM_NOT_FILLED", some pmResult, none, 0⟩, [a1], []⟩
  else
    let aggressivePrice := opp.pf_price * (1 + markup)
    let a2 := Action.placeOrder Platform.predictFun opp.pf_token Side.buy
      aggressivePrice size
    let pfOrder := env.pfPlace
    if pfOrder.status = OrderStatus.failed then
      ⟨mkExecutionResult false "PF_ORDER_FAILED" (some pmResult) (some pfOrder) size,
        [a1, a2],
        [⟨pmResult, Platform.predictFun, size, "PF_ORDER_FAILED", 0, false⟩]⟩
    else
      let a3 := Action.getOrderStatus Platform.predictFun pfOrder.order_id
      let pfStatus := env.pfStatus.getD pfOrder
      if size * (95 / 100) ≤ pfStatus.filled_size then
        ⟨mkExecutionResult true "" (some pmResult) (some pfStatus) 0,
          [a1, a2, a3], []⟩
      else
        let cancels :=
          if pfStatus.status = OrderStatus.pending then
            [Action.cancelOrder Platform.predictFun pfOrder.order_id]
          else []
        if 0 < pfStatus.filled_size then
          let unhedged := size - pfStatus.filled_size
          ⟨mkExecutionResult false "PARTIAL_FILL" (some pmResult)
              (some pfStatus) unhedged,
            [a1, a2, a3] ++ cancels,
            [⟨pmResult, Platform.predictFun, unhedged, "PARTIAL_FILL", 0, false⟩]⟩
        else
          ⟨mkExecutionResult false "PF_NOT_FILLED" (some pmResult)
              (some pfStatus) size,
            [a1, a2, a3] ++ cancels,
            [⟨pmResult, Platform.predictFun, size, "PF_NOT_FILLED", 0, false⟩]⟩

/-- Venue responses for `retry_unhedged`, indexed by attempt number. -/
structure RetryEnv where
  ob : Nat → Option OrderbookFlat
  place : Nat → OrderResult

/-- Loop body of `OrderExecutor.retry_unhedged` (src/engine/executor.py,
lines 199-230): on each attempt, when the missing platform is Predict.fun,
fetch the orderbook for the filled order's token; if it has a positive best
ask, place a BUY order on Predict.fun for `ob.token_id` at
`best_ask * 1.01` sized `expected_size`; stop successfully when the
placement reports success (the in-place `retry_count`/`resolved` mutations
are not tracked beyond the returned flag). -/
def retryUnhedgedAux (pos : UnhedgedPosition) (env : RetryEnv) :
    Nat → Nat → Bool × List Action
  | _, 0 => (false, [])
  | i, fuel + 1 =>
      match pos.missing_platform with
      | Platform.predictFun =>
          let aGet := Action.getOrderbook Platform.predictFun
            pos.filled_order.token_id
          match env.ob i with
          | some ob =>
              if 0 < ob.best_ask then
                let aPlace := Action.placeOrder Platform.predictFun ob.token_id
                  Side.buy (ob.best_ask * (101 / 100)) pos.expected_size
                if (env.place i).success then (true, [aGet, aPlace])
                else
                  let rest := retryUnhedgedAux pos env (i + 1) fuel
                  (rest.1, aGet :: aPlace :: rest.2)
              else
                let rest := retryUnhedgedAux pos env (i + 1) fuel
                (rest.1, aGet :: rest.2)
          | none =>
              let rest := retryUnhedgedAux pos env (i + 1) fuel
              (rest.1, aGet :: rest.2)
      | _ => retryUnhedgedAux pos env (i + 1) fuel

/-- Embeds `retry_unhedged(position, max_retries)`: up to `max_retries`
attempts starting at attempt index 0. -/
def retryUnhedged (pos : UnhedgedPosition) (maxRetries : Nat)
    (env : RetryEnv) : Bool × List Action :=
  retryUnhedgedAux pos env 0 maxRetries


/-! ## Claim theorems -/

/-- Claim C4: on the ladder [(0.10,100),(0.12,50)] the cost walk fills a
target of 120 completely at total cost 12.4 (= 62/5), and for a target of
200 it returns the explicit insufficient-liquidity result `none` (total
depth is only 150). -/
theorem claim_C4_walk_cost_examples :
    calc_buy_cost [(1/10, 100), (3/25, 50)] 120 = some (62/5) ∧
    calc_buy_cost [(1/10, 100), (3/25, 50)] 200 = none := by
  constructor <;> norm_num [calc_buy_cost_cons, calc_buy_cost_nil]

/-- Claim C8 counterexample: on the empty ladder a target of 0 yields the
insufficient-liquidity result `none` rather than the trivial zero result,
and on the ladder [(0.5,5)] a target of -2 yields the negative cost -1. -/
theorem claim_C8_counterexample :
    calc_buy_cost [] 0 = none ∧
    calc_buy_cost [(1/2, 5)] (-2) = some (-1) ∧ ¬ (0 ≤ (-1 : ℚ)) := by
  refine ⟨rfl, by norm_num [calc_buy_cost_cons], by norm_num⟩

/-- Claim C8 amended: the empty ladder returns the insufficient-liquidity
result for every target, even targets at most 0; on a ladder whose first
level has non-negative size, a target `t ≤ 0` returns cost
`first_price * t` — the trivial zero cost for `t = 0`, and a negative cost
for `t < 0` whenever the top price is positive. -/
theorem claim_C8_amended (p s t : ℚ) (tl : List (ℚ × ℚ))
    (hs : 0 ≤ s) (ht : t ≤ 0) :
    calc_buy_cost [] t = none ∧
    calc_buy_cost ((p, s) :: tl) t = some (p * t) := by
  refine ⟨rfl, ?_⟩
  rw [calc_buy_cost_cons, if_pos (le_trans ht hs)]

theorem claim_C8_amended_witness :
    calc_buy_cost [] (0:ℚ) = none ∧
    calc_buy_cost [((1:ℚ)/2, 5)] 0 = some ((1/2) * 0) :=
  claim_C8_amended (1/2) 5 0 [] (by norm_num) (by norm_num)

/-- Claim C7 counterexample: the ladder [(1,-5),(2,10)] has non-decreasing
prices (the literal §3 sortedness hypothesis of the claim), targets 1 and 2
both fill completely, yet the average cost per unit decreases:
cost(1)/1 = 7 while cost(2)/2 = 4.5. -/
theorem claim_C7_counterexample :
    asksSorted [((1:ℚ), -5), (2, 10)] ∧
    (0:ℚ) < 1 ∧ (1:ℚ) ≤ 2 ∧
    calc_buy_cost [((1:ℚ), -5), (2, 10)] 1 = some 7 ∧
    calc_buy_cost [((1:ℚ), -5), (2, 10)] 2 = some 9 ∧
    ¬ ((7:ℚ) / 1 ≤ (9:ℚ) / 2) := by
  refine ⟨by norm_num [asksSorted, List.pairwise_cons], by norm_num, by norm_num,
    by norm_num [calc_buy_cost_cons, calc_buy_cost_nil],
    by norm_num [calc_buy_cost_cons, calc_buy_cost_nil], by norm_num⟩

/-- Claim C7 amended: on a ladder with non-decreasing prices AND
non-negative level sizes, for targets `0 < t₁ ≤ t₂` that both fill
completely, the average cost per unit is monotone:
`cost(t₁)/t₁ ≤ cost(t₂)/t₂`. -/
theorem claim_C7_amended (asks : List (ℚ × ℚ)) (t₁ t₂ c₁ c₂ : ℚ)
    (hsorted : asksSorted asks) (hsz : sizesNonneg asks)
    (ht₁ : 0 < t₁) (ht : t₁ ≤ t₂)
    (hc₁ : calc_buy_cost asks t₁ = some c₁)
    (hc₂ : calc_buy_cost asks t₂ = some c₂) :
    c₁ / t₁ ≤ c₂ / t₂ := by
  have ht₂ : 0 < t₂ := lt_of_lt_of_le ht₁ ht
  rw [div_le_div_iff₀ ht₁ ht₂]
  exact calc_buy_cost_avg_mono_mul asks t₁ t₂ c₁ c₂ hsorted hsz ht₁ ht hc₁ hc₂

theorem claim_C7_amended_witness :
    (6:ℚ) / 60 ≤ ((62:ℚ)/5) / 120 :=
  claim_C7_amended [(1/10, 100), (3/25, 50)] 60 120 6 (62/5)
    (by norm_num [asksSorted, List.pairwise_cons]) (by norm_num [sizesNonneg])
    (by norm_num) (by norm_num)
    (by norm_num [calc_buy_cost_cons, calc_buy_cost_nil])
    (by norm_num [calc_buy_cost_cons, calc_buy_cost_nil])

/-- Claim C6: `calc_max_shares` returns 0 whenever the top-of-book unit
cost (best PF ask times the fee multiplier plus the sum of best PM asks, the
fee-inclusive one-plus-fee form) is at least 1 — under the §3 ladder
invariant (sorted prices, non-negative sizes) and a non-negative fee
multiplier — and it returns 0 whenever the minimum total ask depth over
all legs is at most 0. -/
theorem claim_C6_solver_zero (pfBook : List (ℚ × ℚ))
    (pmBooks : List (List (ℚ × ℚ))) (feeRate : ℚ) :
    ((0 ≤ feeRate ∧ asksSorted pfBook ∧ sizesNonneg pfBook ∧
      (∀ b ∈ pmBooks, asksSorted b ∧ sizesNonneg b) ∧
      1 ≤ headPrice pfBook * feeRate + (pmBooks.map headPrice).sum) →
        calc_max_shares pfBook pmBooks feeRate = 0) ∧
    ((pmBooks.map ladderDepth).foldl min (ladderDepth pfBook) ≤ 0 →
        calc_max_shares pfBook pmBooks feeRate = 0) := by
  constructor
  · rintro ⟨hfee, hs1, hs2, hsb, hcost⟩
    unfold calc_max_shares
    by_cases hml : (pmBooks.map ladderDepth).foldl min (ladderDepth pfBook) ≤ 0
    · rw [if_pos hml]
    · rw [if_neg hml]
      apply binSearchGold_stays_zero
      intro mid hmid pfC hpf pmT hpm
      have hA : headPrice pfBook * mid ≤ pfC :=
        calc_buy_cost_ge pfBook (headPrice pfBook) mid pfC
          (headPrice_le_of_sorted pfBook hs1) hs2 hmid hpf
      have hB : (pmBooks.map headPrice).sum * mid ≤ pmT :=
        pmCostsSum_ge pmBooks mid pmT hmid hsb hpm
      nlinarith [mul_le_mul_of_nonneg_right hA hfee,
        mul_le_mul_of_nonneg_right hcost hmid.le]
  · intro h
    unfold calc_max_shares
    rw [if_pos h]

theorem claim_C6_solver_zero_witness :
    calc_max_shares [((1:ℚ)/2, 10)] [[(3/5, 10)]] (102/100) = 0 ∧
    calc_max_shares [((1:ℚ)/2, 0)] [] (102/100) = 0 :=
  ⟨(claim_C6_solver_zero [((1:ℚ)/2, 10)] [[(3/5, 10)]] (102/100)).1
      ⟨by norm_num, by norm_num [asksSorted, List.pairwise_cons],
        by norm_num [sizesNonneg],
        by norm_num [asksSorted, sizesNonneg, List.pairwise_cons],
        by norm_num [headPrice]⟩,
   (claim_C6_solver_zero [((1:ℚ)/2, 0)] [] (102/100)).2
      (by norm_num [calc_max_shares, ladderDepth])⟩

/-- Claim C1 counterexample: with all four books fresh, gas estimates 0,
fees 0% and 2%, and both legs' best asks 0.40, the engine detector
(`check_arbitrage` / `_check_direction`) passes all checks and returns an
opportunity whose unit cost is 0.808 (= 101/125) just as the claim states,
but whose profit rate is `(1 - 0.808)/0.808 = 24/101 ≈ 0.2376`, not the
claimed `1 - 0.808 = 0.192`. -/
theorem claim_C1_counterexample :
    (checkArbitrage ⟨1/100, 100, 10, 500, 0, 0, 1/50, 0⟩ 1
        (some ⟨Platform.polymarket, 1, 39/100, 2/5, 100, 100, 1⟩)
        (some ⟨Platform.polymarket, 3, 59/100, 3/5, 100, 100, 1⟩)
        (some ⟨Platform.opinion, 4, 59/100, 3/5, 100, 100, 1⟩)
        (some ⟨Platform.opinion, 2, 39/100, 2/5, 100, 100, 1⟩)).map
      (fun o => (o.total_cost, o.profit_pct)) = some (101/125, 24/101) ∧
    ¬ ((24:ℚ)/101 = 1 - 101/125) := by
  constructor
  · norm_num [checkArbitrage, checkDirection, OrderbookFlat.isFresh]
  · norm_num

/-- Claim C1 amended: every opportunity the engine detector returns has
unit cost `p₁(1+f₁) + p₂(1+f₂)` plus the two configured gas estimates, and
profit rate `(1 - unit_cost)/unit_cost` (return on capital, not
`1 - unit_cost`); the gold-case detector uses the claimed convention: for
legs priced 0.40 (fee 0%) and 0.40 (fee 2%) it computes unit cost
0.808 = 101/125 and profit rate 0.192 = 24/125. -/
theorem claim_C1_amended (cfg : EngineConfig) (dir : Direction)
    (pm_ob op_ob : OrderbookFlat) (opp : ArbOpportunityM)
    (h : checkDirection cfg dir pm_ob op_ob = some opp) :
    (opp.total_cost = pm_ob.best_ask * (1 + cfg.pm_fee) +
        op_ob.best_ask * (1 + cfg.op_fee) + cfg.pm_gas + cfg.op_gas ∧
      opp.profit_pct = (1 - opp.total_cost) / opp.total_cost) ∧
    (goldTotalCost (2/5) [2/5] = 101/125 ∧
      goldProfitRate (2/5) [2/5] = 24/125) := by
  refine ⟨?_, by norm_num [goldTotalCost, PF_FEE_RATE],
    by norm_num [goldProfitRate, goldTotalCost, PF_FEE_RATE]⟩
  simp only [checkDirection] at h
  split_ifs at h with h1 h2 h3
  rw [Option.some_inj] at h
  subst h
  constructor
  · show pm_ob.best_ask + op_ob.best_ask +
      (pm_ob.best_ask * cfg.pm_fee + op_ob.best_ask * cfg.op_fee) +
      (cfg.pm_gas + cfg.op_gas) = _
    ring
  · rfl

/-- Concrete engine configuration for the C1 witness: 1% threshold,
fees 0% / 2%, zero gas. -/
def cfgW : EngineConfig := ⟨1/100, 100, 10, 500, 0, 0, 1/50, 0⟩

/-- Concrete Polymarket book for the C1 witness (best ask 0.40). -/
def pmObW : OrderbookFlat := ⟨Platform.polymarket, 1, 39/100, 2/5, 100, 100, 1⟩

/-- Concrete Opinion book for the C1 witness (best ask 0.40). -/
def opObW : OrderbookFlat := ⟨Platform.opinion, 2, 39/100, 2/5, 100, 100, 1⟩

/-- The opportunity the engine detector returns on the C1 witness input. -/
def oppW : ArbOpportunityM :=
  ⟨Direction.pmYesOpNo, 1, 2, 2/5, 2/5, 101/125, 24/101, 100⟩

theorem claim_C1_amended_witness :
    (oppW.total_cost = pmObW.best_ask * (1 + cfgW.pm_fee) +
        opObW.best_ask * (1 + cfgW.op_fee) + cfgW.pm_gas + cfgW.op_gas ∧
      oppW.profit_pct = (1 - oppW.total_cost) / oppW.total_cost) ∧
    (goldTotalCost (2/5) [2/5] = 101/125 ∧
      goldProfitRate (2/5) [2/5] = 24/125) :=
  claim_C1_amended cfgW Direction.pmYesOpNo pmObW opObW oppW
    (by norm_num [checkDirection, cfgW, pmObW, opObW, oppW])


/-- Claim C5: if the first (Polymarket FOK) leg does not fill, `execute`
returns an unsuccessful result with zero unhedged exposure, places no
further order on any venue (the trace holds only the single FOK
placement), and appends nothing to the unhedged-position list. -/
theorem claim_C5_pm_not_filled (opp : OppParams) (size markup : ℚ)
    (env : ExecEnv) (h : env.pmFok.success = false) :
    executeModel opp size markup env =
      ⟨Except.ok ⟨false, "PM_NOT_FILLED", some env.pmFok, none, 0⟩,
        [Action.placeFokOrder Platform.polymarket opp.pm_token Side.buy
          opp.pm_price size],
        []⟩ := by
  unfold executeModel
  rw [if_pos h]

/-- Venue responses for the C5 witness: the PM FOK order is cancelled
(unfilled). -/
def envC5 : ExecEnv :=
  ⟨⟨10, Platform.polymarket, 1, Side.buy, 2/5, 50, 0, OrderStatus.cancelled⟩,
   ⟨11, Platform.predictFun, 2, Side.buy, 2/5, 50, 0, OrderStatus.pending⟩,
   none⟩

theorem claim_C5_pm_not_filled_witness :
    executeModel ⟨1, 2, 2/5, 2/5⟩ 50 (1/100) envC5 =
      ⟨Except.ok ⟨false, "PM_NOT_FILLED", some envC5.pmFok, none, 0⟩,
        [Action.placeFokOrder Platform.polymarket 1 Side.buy (2/5) 50],
        []⟩ :=
  claim_C5_pm_not_filled ⟨1, 2, 2/5, 2/5⟩ 50 (1/100) envC5
    (by simp [envC5, OrderResult.success])

/-- Venue responses for C10: the PM FOK leg fills, the PF limit order is
accepted, and the status query reports a 100% fill (at least 95% of the
requested size). -/
def envC10 : ExecEnv :=
  ⟨⟨10, Platform.polymarket, 1, Side.buy, 2/5, 50, 50, OrderStatus.filled⟩,
   ⟨11, Platform.predictFun, 2, Side.buy, 101/250, 50, 0, OrderStatus.pending⟩,
   some ⟨11, Platform.predictFun, 2, Side.buy, 101/250, 50, 50,
     OrderStatus.filled⟩⟩

/-- Claim C10: with the second leg's queried fill at 100% (well above the
95% acceptance threshold), `execute` takes the success branch — no cancel,
no unhedged position recorded — but the value it returns is the `TypeError`
raised because the `ExecutionResult(...)` call passes a `pf_order=` keyword
that the dataclass of src/models.py does not declare; the intended
`success=True` result is never produced. -/
theorem claim_C10_success_branch_type_error :
    executeModel ⟨1, 2, 2/5, 2/5⟩ 50 (1/100) envC10 =
      ⟨Except.error PyError.typeErrorPfOrderKw,
        [Action.placeFokOrder Platform.polymarket 1 Side.buy (2/5) 50,
         Action.placeOrder Platform.predictFun 2 Side.buy (101/250) 50,
         Action.getOrderStatus Platform.predictFun 11],
        []⟩ := by
  have h95 : (50:ℚ) * (95/100) ≤ 50 := by norm_num
  simp [executeModel, envC10, OrderResult.success, mkExecutionResult, h95]
  norm_num

/-- Venue responses for the C3 counterexample: PM fills, the PF order is
resting, and the explicit status query FAILS (`none`). -/
def envC3 : ExecEnv :=
  ⟨⟨10, Platform.polymarket, 1, Side.buy, 2/5, 50, 50, OrderStatus.filled⟩,
   ⟨11, Platform.predictFun, 2, Side.buy, 101/250, 50, 0, OrderStatus.pending⟩,
   none⟩

/-- Claim C3 counterexample: with the status query failing (`none` — no
status answer at all), `execute` still takes compensating actions: it
cancels the PF order and records an unhedged position, both based only on
the placement-time order state, never on a successful status query. -/
theorem claim_C3_counterexample :
    envC3.pfStatus = none ∧
    ((executeModel ⟨1, 2, 2/5, 2/5⟩ 50 (1/100) envC3).actions.any
      Action.isCancel = true) ∧
    ((executeModel ⟨1, 2, 2/5, 2/5⟩ 50 (1/100) envC3).recorded ≠ []) := by
  have h95 : ¬ ((50:ℚ) * (95/100) ≤ 0) := by norm_num
  refine ⟨rfl, ?_, ?_⟩ <;>
    simp [executeModel, envC3, OrderResult.success, mkExecutionResult,
      Action.isCancel, h95]

/-- Claim C3 amended: when the status query fails, `execute` substitutes
the placement-time order result for the missing answer and proceeds
identically — compensating actions (cancellation, unhedged-position
recording) are taken exactly as if the order were still in its
placement-time (typically unfilled) state, without any successful status
query. -/
theorem claim_C3_amended (opp : OppParams) (size markup : ℚ) (env : ExecEnv)
    (h : env.pfStatus = none) :
    executeModel opp size markup env =
      executeModel opp size markup ⟨env.pmFok, env.pfPlace, some env.pfPlace⟩ := by
  unfold executeModel
  rw [h]
  simp [Option.getD]

theorem claim_C3_amended_witness :
    executeModel ⟨1, 2, 2/5, 2/5⟩ 50 (1/100) envC3 =
      executeModel ⟨1, 2, 2/5, 2/5⟩ 50 (1/100)
        ⟨envC3.pmFok, envC3.pfPlace, some envC3.pfPlace⟩ :=
  claim_C3_amended ⟨1, 2, 2/5, 2/5⟩ 50 (1/100) envC3 rfl

/-- Venue responses for the C9 counterexample: PM fills, the PF leg is
PARTIALLY_FILLED at 10 of 100 after the timeout. -/
def envC9 : ExecEnv :=
  ⟨⟨10, Platform.polymarket, 1, Side.buy, 2/5, 100, 100, OrderStatus.filled⟩,
   ⟨11, Platform.predictFun, 2, Side.buy, 101/250, 100, 0, OrderStatus.pending⟩,
   some ⟨11, Platform.predictFun, 2, Side.buy, 101/250, 100, 10,
     OrderStatus.partFilled⟩⟩

/-- Claim C9 counterexample: a partially filled PF leg (10 of 100, status
PARTIALLY_FILLED) leaves a 90-share remainder, yet `execute` issues no
cancellation — the cancel is guarded by `status == PENDING` only — so the
remainder is left resting while the 90 shares are recorded as unhedged. -/
theorem claim_C9_counterexample :
    ((executeModel ⟨1, 2, 2/5, 2/5⟩ 100 (1/100) envC9).actions.any
      Action.isCancel = false) ∧
    ((executeModel ⟨1, 2, 2/5, 2/5⟩ 100 (1/100) envC9).recorded.map
      (fun p => p.expected_size) = [90]) := by
  have h95 : ¬ ((100:ℚ) * (95/100) ≤ 10) := by norm_num
  have h0 : (0:ℚ) < 10 := by norm_num
  constructor
  · simp [executeModel, envC9, OrderResult.success, mkExecutionResult,
      Action.isCancel, h95, h0]
  · simp [executeModel, envC9, OrderResult.success, mkExecutionResult,
      Action.isCancel, h95, h0]
    norm_num

/-- Claim C9 amended: `execute` cancels the Predict.fun order if and only
if the PM leg filled, the PF placement did not fail immediately, the
resolved fill is below the 95% acceptance threshold, AND the resolved
status is exactly PENDING; in particular a PARTIALLY_FILLED remainder is
never cancelled, and the ≥95% success path never cancels. -/
theorem claim_C9_amended (opp : OppParams) (size markup : ℚ) (env : ExecEnv) :
    ((executeModel opp size markup env).actions.any Action.isCancel = true) ↔
      (env.pmFok.success = true ∧
       env.pfPlace.status ≠ OrderStatus.failed ∧
       (env.pfStatus.getD env.pfPlace).filled_size < size * (95/100) ∧
       (env.pfStatus.getD env.pfPlace).status = OrderStatus.pending) := by
  by_cases h1 : env.pmFok.success = false
  · simp [executeModel, h1, Action.isCancel]
  · have h1t : env.pmFok.success = true := by
      cases hb : env.pmFok.success
      · exact absurd hb h1
      · rfl
    by_cases h2 : env.pfPlace.status = OrderStatus.failed
    · simp [executeModel, h1t, h2, Action.isCancel]
    · by_cases h3 : size * (95/100) ≤ (env.pfStatus.getD env.pfPlace).filled_size
      · simp [executeModel, h1t, h2, h3, Action.isCancel, not_lt.mpr h3]
      · have h3l : (env.pfStatus.getD env.pfPlace).filled_size < size * (95/100) :=
          not_le.mp h3
        by_cases h4 : (env.pfStatus.getD env.pfPlace).status = OrderStatus.pending
        · by_cases h5 : 0 < (env.pfStatus.getD env.pfPlace).filled_size <;>
            simp [executeModel, h1t, h2, h3, h4, h5, Action.isCancel, h3l]
        · by_cases h5 : 0 < (env.pfStatus.getD env.pfPlace).filled_size <;>
            simp [executeModel, h1t, h2, h3, h4, h5, Action.isCancel]

/-- Venue responses for the C2 counterexample: PM fills 50, the PF leg ends
completely unfilled (status CANCELLED, fill 0). -/
def envC2 : ExecEnv :=
  ⟨⟨10, Platform.polymarket, 1, Side.buy, 2/5, 50, 50, OrderStatus.filled⟩,
   ⟨11, Platform.predictFun, 2, Side.buy, 101/250, 50, 0, OrderStatus.pending⟩,
   some ⟨11, Platform.predictFun, 2, Side.buy, 101/250, 50, 0,
     OrderStatus.cancelled⟩⟩

/-- Claim C2 counterexample: an attempt that ends with the PM leg filled
and the PF leg unfilled records the exposure (one unhedged position on the
missing Predict.fun side, sized 50) but submits NO sell order anywhere —
every order in the trace is a buy; no compensating opposite-side order on
the filled leg's venue exists. -/
theorem claim_C2_counterexample :
    ((executeModel ⟨1, 2, 2/5, 2/5⟩ 50 (1/100) envC2).recorded.map
      (fun p => (p.missing_platform, p.expected_size)) =
        [(Platform.predictFun, 50)]) ∧
    ((executeModel ⟨1, 2, 2/5, 2/5⟩ 50 (1/100) envC2).actions.any
      Action.isSellOrder = false) := by
  have h95 : ¬ ((50:ℚ) * (95/100) ≤ 0) := by norm_num
  constructor <;>
    simp [executeModel, envC2, OrderResult.success, mkExecutionResult,
      Action.isSellOrder, h95]

/-- Claim C2 amended: when the attempt ends with the first leg filled but
the second not (immediately failed, unfilled, or under the 95% threshold),
`execute` submits no compensating sell order at all — every submitted
order is a buy — and instead records exactly one unhedged position naming
the missing Predict.fun side; the separate `retry_unhedged` routine then
tries to COMPLETE the hedge by submitting one BUY order on the missing
leg's venue, priced at 1.01 times the current best ask and sized to the
position's expected (unfilled) size. -/
theorem claim_C2_amended :
    (∀ (opp : OppParams) (size markup : ℚ) (env : ExecEnv),
      env.pmFok.success = true →
      (env.pfPlace.status = OrderStatus.failed ∨
        (env.pfStatus.getD env.pfPlace).filled_size < size * (95/100)) →
      ((executeModel opp size markup env).recorded.map
          (fun p => p.missing_platform) = [Platform.predictFun] ∧
        ∀ a ∈ (executeModel opp size markup env).actions,
          a.isSellOrder = false)) ∧
    (∀ (pos : UnhedgedPosition) (maxRetries : Nat) (env : RetryEnv)
        (ob : OrderbookFlat),
      pos.missing_platform = Platform.predictFun → env.ob 0 = some ob →
      0 < ob.best_ask → (env.place 0).success = true → 0 < maxRetries →
      retryUnhedged pos maxRetries env =
        (true,
          [Action.getOrderbook Platform.predictFun pos.filled_order.token_id,
           Action.placeOrder Platform.predictFun ob.token_id Side.buy
             (ob.best_ask * (101/100)) pos.expected_size])) := by
  constructor
  · intro opp size markup env h1 h2
    by_cases hf : env.pfPlace.status = OrderStatus.failed
    · simp [executeModel, h1, hf, Action.isSellOrder]
    · have h3 : (env.pfStatus.getD env.pfPlace).filled_size < size * (95/100) :=
        h2.resolve_left hf
      have h3n : ¬ (size * (95/100) ≤ (env.pfStatus.getD env.pfPlace).filled_size) :=
        not_le.mpr h3
      by_cases h4 : (env.pfStatus.getD env.pfPlace).status = OrderStatus.pending <;>
        by_cases h5 : 0 < (env.pfStatus.getD env.pfPlace).filled_size <;>
          simp [executeModel, h1, hf, h3n, h4, h5, Action.isSellOrder]
  · intro pos maxRetries env ob hm hob hask hsucc hpos
    obtain ⟨n, rfl⟩ : ∃ n, maxRetries = n + 1 :=
      ⟨maxRetries - 1, (Nat.succ_pred_eq_of_pos hpos).symm⟩
    simp [retryUnhedged, retryUnhedgedAux, hm, hob, hask, hsucc]

/-- Concrete unhedged position for the C2 witness. -/
def posC2 : UnhedgedPosition :=
  ⟨⟨10, Platform.polymarket, 1, Side.buy, 2/5, 50, 50, OrderStatus.filled⟩,
   Platform.predictFun, 50, "PF_NOT_FILLED", 0, false⟩

/-- Retry-phase venue responses for the C2 witness: the orderbook shows a
positive best ask and the hedge order fills. -/
def renvC2 : RetryEnv :=
  ⟨fun _ => some ⟨Platform.predictFun, 2, 2/5, 41/100, 100, 100, 1⟩,
   fun _ => ⟨12, Platform.predictFun, 2, Side.buy, 4141/10000, 50, 50,
     OrderStatus.filled⟩⟩

theorem claim_C2_amended_witness :
    (((executeModel ⟨1, 2, 2/5, 2/5⟩ 50 (1/100) envC2).recorded.map
        (fun p => p.missing_platform) = [Platform.predictFun]) ∧
      (∀ a ∈ (executeModel ⟨1, 2, 2/5, 2/5⟩ 50 (1/100) envC2).actions,
        a.isSellOrder = false)) ∧
    retryUnhedged posC2 3 renvC2 =
      (true,
        [Action.getOrderbook Platform.predictFun posC2.filled_order.token_id,
         Action.placeOrder Platform.predictFun 2 Side.buy
           ((41/100) * (101/100)) posC2.expected_size]) :=
  ⟨claim_C2_amended.1 ⟨1, 2, 2/5, 2/5⟩ 50 (1/100) envC2
      (by simp [envC2, OrderResult.success])
      (Or.inr (by simp [envC2])),
   claim_C2_amended.2 posC2 3 renvC2
     ⟨Platform.predictFun, 2, 2/5, 41/100, 100, 100, 1⟩
     rfl rfl (by norm_num) (by simp [renvC2, OrderResult.success])
     (by norm_num)⟩

end PMQuant
